import Mathlib

/-!
Verification of the aggregation / status-derivation pipeline of
`mp_project_war_room_v2.py` (MP Govt War Room dashboard), shallowly embedded.

Modelling conventions:
* A spreadsheet cell that may be missing (pandas `NaN` / `NaT`) is an
  `Option`; `none` is the missing value.
* `Completion %` is a rational number (`ℚ`); comparisons with a missing
  value are `false`, exactly as every IEEE comparison with `NaN` is false.
* Timestamps are rationals measured in days since an epoch: a calendar
  date converts (via `pd.to_datetime`) to its midnight, an integer number
  of days, while `pd.Timestamp.today()` is the full current timestamp,
  integer day plus a fractional time of day.  The current timestamp is an
  explicit parameter `now : ℚ`.
* `pandas.groupby` (default `dropna=True`) drops every row whose group
  key contains a missing value; within a group the original input order
  is preserved.  Group keys are emitted here in first-appearance order;
  pandas sorts them, but no property below depends on the order in which
  groups are listed.
* The aggregations used by the script: `"mean"` skips missing values and
  is undefined (`none`) on a group with no numeric value; `"last"`
  (pandas `GroupBy.last`) returns the last non-missing value of the group.
-/

namespace WarRoom

/-- One raw row of the spreadsheet (`df` in the script), with the columns
the pipeline reads.  Missing cells are `none`. -/
structure Record where
  projectName : Option String
  projectCategory : Option String
  department : Option String
  subDepartment : Option String
  departmentHead : Option String
  expectedCompletion : Option Int
  weekNumber : Option Int
  completionPercent : Option ℚ
  rawStatusFlag : Option String
deriving DecidableEq

/-- The six-field identity key used by `aggregate_project_progress`:
`["Project Name", "Project category", "Department", "Sub-department",
"Department Head", "Expected Completion"]`. -/
structure GroupKey where
  projectName : String
  projectCategory : String
  department : String
  subDepartment : String
  departmentHead : String
  expectedCompletion : Int
deriving DecidableEq

/-- The identity key of a row, `none` when any of the six cells is
missing (such a row is dropped by `groupby`, pandas `dropna=True`). -/
def keyOf (r : Record) : Option GroupKey :=
  match r.projectName, r.projectCategory, r.department, r.subDepartment,
      r.departmentHead, r.expectedCompletion with
  | some pn, some pc, some d, some sd, some dh, some ec =>
      some ⟨pn, pc, d, sd, dh, ec⟩
  | _, _, _, _, _, _ => none

/-- One row of `proj_summary`: the six identity columns plus the two
aggregated columns `Completion %` (mean) and `Status Flag` (last). -/
structure AggRecord where
  projectName : String
  projectCategory : String
  department : String
  subDepartment : String
  departmentHead : String
  expectedCompletion : Int
  completionPercent : Option ℚ
  statusFlag : Option String
deriving DecidableEq

/-- The identity-key part of an aggregated row. -/
def aggKey (a : AggRecord) : GroupKey :=
  ⟨a.projectName, a.projectCategory, a.department, a.subDepartment,
   a.departmentHead, a.expectedCompletion⟩

/-- pandas `"mean"` aggregation: missing values are skipped; a group with
no numeric value has an undefined (`none`, i.e. `NaN`) mean. -/
def meanOpt (xs : List (Option ℚ)) : Option ℚ :=
  let vs := xs.filterMap id
  if vs.isEmpty then none else some (vs.sum / vs.length)

/-- pandas `"last"` aggregation (`GroupBy.last`, `skipna=True`): the last
non-missing value of the group, `none` when every value is missing. -/
def lastSome : List (Option String) → Option String
  | [] => none
  | none :: xs => lastSome xs
  | some v :: xs =>
    match lastSome xs with
    | some w => some w
    | none => some v

/-- The distinct group keys of `rows` under the key function `key`, in
first-appearance order, skipping rows whose key is missing (`dropna`). -/
def keyList {α κ : Type} [DecidableEq κ] (key : α → Option κ) :
    List α → List κ
  | [] => []
  | r :: rs =>
    match key r with
    | none => keyList key rs
    | some k => k :: (keyList key rs).filter (fun k2 => decide (k2 ≠ k))

/-- `groupby key`: each distinct key paired with its rows, the rows of a
group kept in original input order. -/
def groupBy {α κ : Type} [DecidableEq κ] (key : α → Option κ)
    (rows : List α) : List (κ × List α) :=
  (keyList key rows).map
    (fun k => (k, rows.filter (fun r => decide (key r = some k))))

/-- One output row of the `groupby(...).agg(...)` of line 47: the group
key's six columns plus the mean `Completion %` and last `Status Flag` of
the group's rows. -/
def mkAggRecord (k : GroupKey) (g : List Record) : AggRecord :=
  { projectName := k.projectName
    projectCategory := k.projectCategory
    department := k.department
    subDepartment := k.subDepartment
    departmentHead := k.departmentHead
    expectedCompletion := k.expectedCompletion
    completionPercent := meanOpt (g.map (·.completionPercent))
    statusFlag := lastSome (g.map (·.rawStatusFlag)) }

/-- `aggregate_project_progress` (line 47): group `df_week` by the six
identity columns, aggregate `Completion %` with `"mean"` and
`Status Flag` with `"last"`. -/
def aggregate_project_progress (rows : List Record) : List AggRecord :=
  (groupBy keyOf rows).map (fun g => mkAggRecord g.1 g.2)

/-- `row["Completion %"] >= c` with `NaN`-is-false comparison. -/
def geNaN (x : Option ℚ) (c : ℚ) : Bool :=
  match x with
  | none => false
  | some v => decide (c ≤ v)

/-- `row["Completion %"] < c` with `NaN`-is-false comparison. -/
def ltNaN (x : Option ℚ) (c : ℚ) : Bool :=
  match x with
  | none => false
  | some v => decide (v < c)

/-- `derive_status_flag` (line 56).  `expectedCompletion` is the integer
day `pd.to_datetime(row["Expected Completion"])` denotes (midnight of the
expected date); `now` is `pd.Timestamp.today()`, the full current
timestamp in fractional days. -/
def derive_status_flag (completion : Option ℚ) (expectedCompletion : Int)
    (now : ℚ) : String :=
  if geNaN completion (999 / 10) then "Completed"
  else if geNaN completion 85 then "On Track"
  else if ltNaN completion 85 && decide ((expectedCompletion : ℚ) < now)
    then "Delayed"
  else "Paused"

/-- The `Derived Status` column: `proj_summary.apply(derive_status_flag)`
(line 66). -/
def derivedStatuses (now : ℚ) (aggs : List AggRecord) : List String :=
  aggs.map (fun a =>
    derive_status_flag a.completionPercent a.expectedCompletion now)

/-- `status_count` (line 69): the number of rows whose derived status
equals `s`. -/
def status_count (statuses : List String) (s : String) : Nat :=
  (statuses.filter (fun x => decide (x = s))).length

/-- `heat_df` (line 183): `proj_summary` grouped by
`(Department, Project Name)` with the mean of `Completion %`. -/
def heat_df (aggs : List AggRecord) : List ((String × String) × Option ℚ) :=
  (groupBy (fun a => some (a.department, a.projectName)) aggs).map
    (fun g => (g.1, meanOpt (g.2.map (·.completionPercent))))

/-- The pivoted heatmap: row labels (departments), column labels
(project names), and the matrix of cell values, a cell being `none` when
no input pair fills it or its mean is `NaN`. -/
structure HeatPivot where
  index : List String
  cols : List String
  values : List (List (Option ℚ))
deriving DecidableEq

/-- `DataFrame.pivot` (line 185): fails when the `(index, columns)` pairs
of the input are not pairwise distinct, otherwise builds the
department × project matrix. -/
def pivotTable (cells : List ((String × String) × Option ℚ)) :
    Except String HeatPivot :=
  if (cells.map Prod.fst).Nodup then
    let idx := keyList (fun c => some c.1.1) cells
    let cls := keyList (fun c => some c.1.2) cells
    Except.ok
      ⟨idx, cls,
       idx.map (fun d =>
         cls.map (fun p =>
           (cells.find? (fun c => decide (c.1 = (d, p)))).bind (·.2)))⟩
  else Except.error "Index contains duplicate entries, cannot reshape"

/-- `heat_pivot.fillna(0)` (line 186): every missing cell becomes `0`. -/
def fillna0 (m : HeatPivot) : List (List ℚ) :=
  m.values.map (fun row => row.map (fun v => v.getD 0))

/-- What the heatmap section of the page shows: a warning when the
`try` block failed, the filled matrix when it succeeded. -/
structure HeatSection where
  warning : Option String
  matrix : Option (List String × List String × List (List ℚ))
deriving DecidableEq

/-- Lines 184–197: `try` the pivot; on success fill with 0 and render
the heatmap, on failure `st.warning(...)` and render nothing. -/
def renderHeatSection (aggs : List AggRecord) : HeatSection :=
  match pivotTable (heat_df aggs) with
  | Except.ok m =>
      { warning := none, matrix := some (m.index, m.cols, fillna0 m) }
  | Except.error e =>
      { warning := some ("Unable to render heatmap for this week: " ++ e)
        matrix := none }

/-- The `(Week Number, Project Name)` key of the timeline `groupby`,
missing when either cell is. -/
def tlKey (r : Record) : Option (Int × String) :=
  match r.weekNumber, r.projectName with
  | some w, some p => some (w, p)
  | _, _ => none

/-- `agg_tl` (line 203): group by `(Week Number, Project Name)` and take
the mean of `Completion %`. -/
def agg_tl (rows : List Record) : List ((Int × String) × Option ℚ) :=
  (groupBy tlKey rows).map
    (fun g => (g.1, meanOpt (g.2.map (·.completionPercent))))

/-- `timeline_df` (line 201): the rows whose `Project category` is
`"Super Critical"`. -/
def scFilter (rows : List Record) : List Record :=
  rows.filter (fun r => decide (r.projectCategory = some "Super Critical"))

/-- Everything the page renders after the heatmap `try` block: the
heatmap section's outcome and the timeline chart's data (line 199–211;
the chart is drawn only when `timeline_df` is non-empty). -/
structure DashboardTail where
  heat : HeatSection
  timeline : Option (List ((Int × String) × Option ℚ))
deriving DecidableEq

/-- Lines 181–211 of the script: render the heatmap section, then —
unconditionally, whatever the heatmap did — the Super Critical timeline
section. -/
def renderTail (df : List Record) (aggs : List AggRecord) : DashboardTail :=
  { heat := renderHeatSection aggs
    timeline :=
      let timeline_df := scFilter df
      if timeline_df.isEmpty then none else some (agg_tl timeline_df) }

/-- The `(Week Number, Project Name, Project category)` key used by the
aggregate-then-filter side of the commutation law. -/
def tlcKey (r : Record) : Option (Int × String × String) :=
  match r.weekNumber, r.projectName, r.projectCategory with
  | some w, some p, some c => some (w, p, c)
  | _, _, _ => none

/-- Modelled from the spec: aggregate the full record set by
`(weekNumber, projectName, projectCategory)` with the mean of
`completionPercent` — the aggregate-first side of the TrendAggregator
commutation property; this pipeline does not appear in the script. -/
def aggByWeekProjCat (rows : List Record) :
    List ((Int × String × String) × Option ℚ) :=
  (groupBy tlcKey rows).map
    (fun g => (g.1, meanOpt (g.2.map (·.completionPercent))))

/-- Modelled from the spec: keep only the `"Super Critical"` groups of
the three-column aggregation and drop the category column. -/
def keepSuperCritical (out : List ((Int × String × String) × Option ℚ)) :
    List ((Int × String) × Option ℚ) :=
  out.filterMap (fun g =>
    if g.1.2.2 = "Super Critical" then some ((g.1.1, g.1.2.1), g.2)
    else none)

/-- Projection of a three-column trend key to a two-column one, defined
only on `"Super Critical"` keys. -/
def sck (k : Int × String × String) : Option (Int × String) :=
  if k.2.2 = "Super Critical" then some (k.1, k.2.1) else none

/-- The timestamp `now` falls on the calendar day `d` (whose midnight is
the integer timestamp `d`). -/
def sameDate (d : Int) (now : ℚ) : Prop :=
  (d : ℚ) ≤ now ∧ now < (d : ℚ) + 1

/-! ### Concrete data used by witnesses and counterexamples -/

/-- A raw row of project `"Bridge A"`, completion 10, flag `"Delayed"`. -/
def rowA : Record :=
  ⟨some "Bridge A", some "Critical", some "PWD", some "Roads",
   some "Head A", some 100, some 3, some 10, some "Delayed"⟩

/-- A second raw row with the same identity key as `rowA`, completion 20
and a missing `Status Flag`. -/
def rowB : Record :=
  ⟨some "Bridge A", some "Critical", some "PWD", some "Roads",
   some "Head A", some 100, some 3, some 20, none⟩

/-- A two-row input whose rows share one identity key. -/
def exRows : List Record := [rowA, rowB]

/-- The single aggregated row of `exRows`: mean completion 15, last
non-missing flag `"Delayed"`. -/
def exAgg : AggRecord :=
  ⟨"Bridge A", "Critical", "PWD", "Roads", "Head A", 100,
   some 15, some "Delayed"⟩

/-- A raw row with a missing `Project Name` cell, hence a missing
identity key. -/
def rowN : Record :=
  ⟨none, some "Critical", some "PWD", some "Roads", some "Head A",
   some 100, some 3, some 50, some "On Track"⟩

/-- A raw row with a complete identity key but missing `Completion %`
and `Status Flag` cells. -/
def rowM : Record :=
  ⟨some "P", some "C", some "D", some "S", some "H", some 0, some 1,
   none, none⟩

/-- The aggregated row of `[rowM]`: both aggregated values missing. -/
def aggM : AggRecord := ⟨"P", "C", "D", "S", "H", 0, none, none⟩

/-- The pivot of `heat_df [aggM]`: one department, one project, one
missing cell. -/
def exPivot : HeatPivot := ⟨["D"], ["P"], [[none]]⟩

/-! ### General lemmas about the grouping combinators -/

/-- The distinct keys of a grouping are pairwise distinct. -/
theorem keyList_nodup {α κ : Type} [DecidableEq κ] (key : α → Option κ)
    (rows : List α) : (keyList key rows).Nodup := by
  induction rows with
  | nil => exact List.nodup_nil
  | cons r rs ih =>
    cases h : key r with
    | none => simpa [keyList, h] using ih
    | some k =>
      simp only [keyList, h]
      rw [List.nodup_cons]
      refine ⟨?_, ih.filter _⟩
      intro hk
      have := (List.mem_filter.mp hk).2
      simp at this

/-- A key is listed exactly when some row carries it. -/
theorem mem_keyList {α κ : Type} [DecidableEq κ] {key : α → Option κ}
    {rows : List α} {k : κ} :
    k ∈ keyList key rows ↔ ∃ r ∈ rows, key r = some k := by
  induction rows with
  | nil => simp [keyList]
  | cons r rs ih =>
    cases h : key r with
    | none =>
      simp only [keyList, h, ih, List.mem_cons]
      constructor
      · rintro ⟨r', hr', hk⟩
        exact ⟨r', Or.inr hr', hk⟩
      · rintro ⟨r', hr' | hr', hk⟩
        · rw [hr', h] at hk
          cases hk
        · exact ⟨r', hr', hk⟩
    | some k0 =>
      simp only [keyList, h, List.mem_cons, List.mem_filter, ih]
      by_cases hkk : k = k0
      · subst hkk
        simp only [true_or, true_iff]
        exact ⟨r, Or.inl rfl, h⟩
      · simp only [hkk, false_or, decide_eq_true_eq, ne_eq,
          not_false_iff, and_true]
        constructor
        · rintro ⟨r', hr', hk⟩
          exact ⟨r', Or.inr hr', hk⟩
        · rintro ⟨r', hr' | hr', hk⟩
          · rw [hr', h] at hk
            cases hk
            exact absurd rfl hkk
          · exact ⟨r', hr', hk⟩

/-- On a duplicate-free list, counting occurrences of `k` is a
membership test. -/
theorem countP_eq_ite_of_nodup {κ : Type} [DecidableEq κ] {l : List κ}
    (hl : l.Nodup) (k : κ) :
    l.countP (fun x => decide (x = k)) = if k ∈ l then 1 else 0 := by
  induction l with
  | nil => simp
  | cons a l ih =>
    rw [List.nodup_cons] at hl
    rw [List.countP_cons, ih hl.2]
    by_cases hak : a = k
    · subst hak
      simp [hl.1]
    · have hka : ¬ (k = a) := fun h => hak h.symm
      simp [List.mem_cons, hak, hka]

/-- `lastSome` is the last entry among the present values. -/
theorem lastSome_eq_getLast? (xs : List (Option String)) :
    lastSome xs = (xs.filterMap id).getLast? := by
  induction xs with
  | nil => rfl
  | cons x xs ih =>
    cases x with
    | none =>
      rw [show lastSome (none :: xs) = lastSome xs from rfl, ih,
        List.filterMap_cons]
      rfl
    | some v =>
      rw [show lastSome (some v :: xs)
            = (match lastSome xs with
               | some w => some w
               | none => some v) from rfl,
        ih, List.filterMap_cons]
      show _ = (v :: xs.filterMap id).getLast?
      rw [List.getLast?_cons]
      cases (xs.filterMap id).getLast? <;> rfl

/-- The four labels `derive_status_flag` can return. -/
theorem derive_status_flag_cases (c : Option ℚ) (e : Int) (n : ℚ) :
    derive_status_flag c e n = "Completed"
      ∨ derive_status_flag c e n = "On Track"
      ∨ derive_status_flag c e n = "Delayed"
      ∨ derive_status_flag c e n = "Paused" := by
  unfold derive_status_flag
  cases hb1 : geNaN c (999 / 10) <;>
    cases hb2 : geNaN c 85 <;>
      cases hb3 : ltNaN c 85 && decide ((e : ℚ) < n) <;>
        simp [hb1, hb2, hb3]

/-- The identity columns of an aggregated row are its group key. -/
theorem aggKey_mkAggRecord (k : GroupKey) (g : List Record) :
    aggKey (mkAggRecord k g) = k := rfl

/-- Membership in the aggregator's output, unfolded to the group key and
the group's rows. -/
theorem mem_aggregate {rows : List Record} {a : AggRecord} :
    a ∈ aggregate_project_progress rows ↔
      ∃ k ∈ keyList keyOf rows,
        a = mkAggRecord k
          (rows.filter (fun r => decide (keyOf r = some k))) := by
  unfold aggregate_project_progress groupBy
  rw [List.map_map, List.mem_map]
  constructor
  · rintro ⟨k, hk, rfl⟩
    exact ⟨k, hk, rfl⟩
  · rintro ⟨k, hk, rfl⟩
    exact ⟨k, hk, rfl⟩

/-- A list key function ignores a row whose key is missing. -/
theorem keyList_middle_none {α κ : Type} [DecidableEq κ]
    (key : α → Option κ) (l1 l2 : List α) (r : α) (h : key r = none) :
    keyList key (l1 ++ r :: l2) = keyList key (l1 ++ l2) := by
  induction l1 with
  | nil =>
    show keyList key (r :: l2) = keyList key l2
    simp only [keyList, h]
  | cons x l1 ih =>
    show keyList key (x :: (l1 ++ r :: l2)) = keyList key (x :: (l1 ++ l2))
    cases hx : key x with
    | none => simpa only [keyList, hx] using ih
    | some k =>
      simp only [keyList, hx]
      rw [ih]

/-- Filtering skips a row the predicate rejects. -/
theorem filter_middle_none {α : Type} (p : α → Bool) (l1 l2 : List α)
    (r : α) (h : p r = false) :
    (l1 ++ r :: l2).filter p = (l1 ++ l2).filter p := by
  simp [List.filter_append, List.filter_cons, h]

/-! ### The claims -/

/-- C1, as stated (refuted): completion 84.99, expected-completion day
100, current timestamp noon of day 100 — the same calendar date — yet the
classifier returns `"Delayed"`, because line 61 compares midnight of the
expected date against the full current timestamp `pd.Timestamp.today()`. -/
theorem expected_today_delayed_at_noon :
    (8499 / 100 : ℚ) < 85
      ∧ sameDate 100 (201 / 2)
      ∧ derive_status_flag (some (8499 / 100)) 100 (201 / 2) = "Delayed" := by
  refine ⟨by norm_num, by norm_num [sameDate], ?_⟩
  norm_num [derive_status_flag, geNaN, ltNaN]

/-- C1, amended: for an aggregated record with completion below 85 whose
expected-completion date equals the current date, the classifier returns
`"Paused"` only when the current timestamp is exactly that date's
midnight; at any later time of the day it returns `"Delayed"`, since the
comparison is a strict less-than against the full current timestamp. -/
theorem low_completion_same_day_classification (c : ℚ) (d : Int) (now : ℚ)
    (hc : c < 85) (_hd : sameDate d now) :
    derive_status_flag (some c) d now
      = if (d : ℚ) < now then "Delayed" else "Paused" := by
  have haux : (85 : ℚ) < 999 / 10 := by norm_num
  have h99 : ¬ ((999 : ℚ) / 10 ≤ c) := by linarith
  have h85 : ¬ ((85 : ℚ) ≤ c) := by linarith
  simp [derive_status_flag, geNaN, ltNaN, h99, h85, hc]

/-- Witness for the amended C1: completion 50 on the expected day at
noon is `"Delayed"`. -/
theorem low_completion_same_day_classification_witness :
    derive_status_flag (some 50) 100 (201 / 2)
      = if ((100 : Int) : ℚ) < 201 / 2 then "Delayed" else "Paused" :=
  low_completion_same_day_classification 50 100 (201 / 2) (by norm_num)
    (by norm_num [sameDate])

/-- C2: for completion at least 85 the classifier returns `"Completed"`
when completion is at least 99.9 and `"On Track"` otherwise, both
boundaries inclusive, regardless of the expected-completion date and of
the current timestamp. -/
theorem high_completion_classification (c : ℚ) (e : Int) (now : ℚ)
    (h85 : (85 : ℚ) ≤ c) :
    derive_status_flag (some c) e now
      = if (999 / 10 : ℚ) ≤ c then "Completed" else "On Track" := by
  by_cases h99 : (999 / 10 : ℚ) ≤ c
  · simp [derive_status_flag, geNaN, h99]
  · simp [derive_status_flag, geNaN, h99, h85]

/-- Witness for C2 at the inclusive boundary: completion exactly 99.9 is
`"Completed"`. -/
theorem high_completion_classification_witness :
    derive_status_flag (some (999 / 10)) 0 0
      = if (999 / 10 : ℚ) ≤ 999 / 10 then "Completed" else "On Track" :=
  high_completion_classification (999 / 10) 0 0 (by norm_num)

/-- C3: the aggregator emits exactly one record per six-field identity
key occurring (complete) in the input, the record carrying that key in
its identity columns unchanged. -/
theorem aggregate_one_record_per_key (rows : List Record) (k : GroupKey) :
    (aggregate_project_progress rows).countP (fun a => decide (aggKey a = k))
      = if rows.any (fun r => decide (keyOf r = some k)) then 1 else 0 := by
  have hiff : (k ∈ keyList keyOf rows)
      ↔ (rows.any (fun r => decide (keyOf r = some k)) = true) := by
    rw [mem_keyList]
    simp [List.any_eq_true]
  unfold aggregate_project_progress groupBy
  rw [List.map_map, List.countP_map]
  show List.countP (fun k2 => decide (k2 = k)) (keyList keyOf rows) = _
  exact (countP_eq_ite_of_nodup (keyList_nodup keyOf rows) k).trans
    (if_congr hiff rfl rfl)

/-- C4: an aggregated record's completion is the mean of the present
completion values of its group, undefined when none is present. -/
theorem aggregate_mean_completion (rows : List Record) (a : AggRecord)
    (h : a ∈ aggregate_project_progress rows) :
    a.completionPercent =
      (let vs := (rows.filter
          (fun r => decide (keyOf r = some (aggKey a)))).filterMap
          (·.completionPercent)
       if vs.isEmpty then none else some (vs.sum / vs.length)) := by
  rcases mem_aggregate.mp h with ⟨k, hk, rfl⟩
  rw [aggKey_mkAggRecord]
  show meanOpt ((rows.filter
      (fun r => decide (keyOf r = some k))).map (·.completionPercent)) = _
  unfold meanOpt
  rw [List.filterMap_map]
  rfl

/-- The two-row example aggregates to the single record `exAgg`. -/
theorem exRows_aggregate : aggregate_project_progress exRows = [exAgg] := by
  simp [exRows, aggregate_project_progress, groupBy, keyList, keyOf, rowA,
    rowB, mkAggRecord, meanOpt, lastSome, exAgg]
  norm_num

/-- Witness for C4 on the two-row example: mean of 10 and 20. -/
theorem aggregate_mean_completion_witness :
    exAgg.completionPercent =
      (let vs := (exRows.filter
          (fun r => decide (keyOf r = some (aggKey exAgg)))).filterMap
          (·.completionPercent)
       if vs.isEmpty then none else some (vs.sum / vs.length)) :=
  aggregate_mean_completion exRows exAgg
    (by rw [exRows_aggregate]; exact List.mem_singleton.mpr rfl)

/-- C5, as stated (refuted): the group's last record in input order is
`rowB`, whose raw flag is missing, yet the aggregated flag is the
earlier `some "Delayed"` — pandas `"last"` skips missing values. -/
theorem last_flag_skips_missing_counterexample :
    exRows.getLast? = some rowB
      ∧ rowB.rawStatusFlag = none
      ∧ keyOf rowA = keyOf rowB
      ∧ (keyOf rowA).isSome = true
      ∧ (aggregate_project_progress exRows).map (·.statusFlag)
          = [some "Delayed"] := by
  refine ⟨rfl, rfl, rfl, rfl, ?_⟩
  rw [exRows_aggregate]
  rfl

/-- C5, amended: an aggregated record's flag is the last present
`rawStatusFlag` of its group in original input order (missing values
skipped), `none` when every flag of the group is missing. -/
theorem aggregate_last_flag (rows : List Record) (a : AggRecord)
    (h : a ∈ aggregate_project_progress rows) :
    a.statusFlag =
      ((rows.filter (fun r => decide (keyOf r = some (aggKey a)))).filterMap
        (·.rawStatusFlag)).getLast? := by
  rcases mem_aggregate.mp h with ⟨k, hk, rfl⟩
  rw [aggKey_mkAggRecord]
  show lastSome ((rows.filter
      (fun r => decide (keyOf r = some k))).map (·.rawStatusFlag)) = _
  rw [lastSome_eq_getLast?, List.filterMap_map]
  rfl

/-- Witness for the amended C5 on the two-row example. -/
theorem aggregate_last_flag_witness :
    exAgg.statusFlag =
      ((exRows.filter
          (fun r => decide (keyOf r = some (aggKey exAgg)))).filterMap
        (·.rawStatusFlag)).getLast? :=
  aggregate_last_flag exRows exAgg
    (by rw [exRows_aggregate]; exact List.mem_singleton.mpr rfl)

/-- C6: the derived-status column only ever holds the four labels, so
the `"Out of Scope"` info card always counts zero rows. -/
theorem derived_status_vocabulary (now : ℚ) (aggs : List AggRecord) :
    status_count (derivedStatuses now aggs) "Out of Scope" = 0
      ∧ ∀ s ∈ derivedStatuses now aggs,
          s = "Completed" ∨ s = "On Track" ∨ s = "Delayed" ∨ s = "Paused" := by
  have hmem : ∀ s ∈ derivedStatuses now aggs,
      s = "Completed" ∨ s = "On Track" ∨ s = "Delayed" ∨ s = "Paused" := by
    intro s hs
    rcases List.mem_map.mp hs with ⟨a, _, rfl⟩
    exact derive_status_flag_cases _ _ _
  refine ⟨?_, hmem⟩
  unfold status_count
  have hnil : (derivedStatuses now aggs).filter
      (fun x => decide (x = "Out of Scope")) = [] := by
    rw [List.filter_eq_nil_iff]
    intro s hs
    rcases hmem s hs with h | h | h | h <;> subst h <;> decide
  rw [hnil]
  rfl

/-- Witness for C6 on a one-record input. -/
theorem derived_status_vocabulary_witness :
    status_count (derivedStatuses 0 [exAgg]) "Out of Scope" = 0 :=
  (derived_status_vocabulary 0 [exAgg]).1

/-- C9: a row with any missing identity cell contributes to no
aggregated record: removing it from anywhere leaves the aggregator's
output unchanged, hence every status count and the total-project count
too. -/
theorem missing_key_row_dropped (l1 l2 : List Record) (r : Record)
    (h : keyOf r = none) :
    aggregate_project_progress (l1 ++ r :: l2)
      = aggregate_project_progress (l1 ++ l2) := by
  unfold aggregate_project_progress groupBy
  rw [List.map_map, List.map_map, keyList_middle_none keyOf l1 l2 r h]
  apply List.map_congr_left
  intro k hk
  have hp : (fun r2 => decide (keyOf r2 = some k)) r = false := by
    simp [h]
  show mkAggRecord k ((l1 ++ r :: l2).filter _) = mkAggRecord k _
  rw [filter_middle_none _ l1 l2 r hp]

/-- Witness for C9: the name-less row `rowN` is dropped. -/
theorem missing_key_row_dropped_witness :
    aggregate_project_progress ([rowA] ++ rowN :: [])
      = aggregate_project_progress ([rowA] ++ []) :=
  missing_key_row_dropped [rowA] [] rowN (by decide)

/-- C10: when every completion value of a group is missing, the
aggregated mean is undefined (`none`, i.e. `NaN`), and the classifier
returns `"Paused"` for it whatever the expected-completion date and the
current timestamp — the undefined mean is not replaced by 0. -/
theorem all_missing_mean_paused (rows : List Record) (a : AggRecord)
    (h : a ∈ aggregate_project_progress rows)
    (hmiss : ∀ r ∈ rows, keyOf r = some (aggKey a) →
      r.completionPercent = none) :
    a.completionPercent = none
      ∧ ∀ (e : Int) (now : ℚ),
          derive_status_flag a.completionPercent e now = "Paused" := by
  rcases mem_aggregate.mp h with ⟨k, hk, rfl⟩
  have hnone : (mkAggRecord k (rows.filter
      (fun r => decide (keyOf r = some k)))).completionPercent = none := by
    show meanOpt _ = none
    unfold meanOpt
    have hempty : ((rows.filter
        (fun r => decide (keyOf r = some k))).map
          (·.completionPercent)).filterMap id = [] := by
      rw [List.filterMap_map, List.filterMap_eq_nil_iff]
      intro r hr
      have hmem := List.mem_filter.mp hr
      exact hmiss r hmem.1 (by simpa using hmem.2)
    rw [hempty]
    rfl
  refine ⟨hnone, ?_⟩
  intro e now
  rw [hnone]
  simp [derive_status_flag, geNaN, ltNaN]

/-- Witness for C10: the single-row group of `rowM` has a missing mean
and derives `"Paused"`. -/
theorem all_missing_mean_paused_witness :
    aggM.completionPercent = none
      ∧ derive_status_flag aggM.completionPercent 7 (1 / 2) = "Paused" :=
  ⟨(all_missing_mean_paused [rowM] aggM (by decide) (by decide)).1,
   (all_missing_mean_paused [rowM] aggM (by decide) (by decide)).2 7 (1 / 2)⟩

/-- The `(Department, Project Name)` pairs of `heat_df` are pairwise
distinct, because `heat_df` is itself the result of a grouping. -/
theorem heat_df_keys_nodup (aggs : List AggRecord) :
    ((heat_df aggs).map Prod.fst).Nodup := by
  have h := keyList_nodup
    (fun a : AggRecord => some (a.department, a.projectName)) aggs
  unfold heat_df groupBy
  rw [List.map_map, List.map_map]
  show (List.map (fun k => k) _).Nodup
  rw [List.map_id']
  exact h

/-- The pivot of `heat_df` always succeeds. -/
theorem pivot_heat_df_ok (aggs : List AggRecord) :
    ∃ m, pivotTable (heat_df aggs) = Except.ok m := by
  unfold pivotTable
  rw [if_pos (heat_df_keys_nodup aggs)]
  exact ⟨_, rfl⟩

/-- C7: the timeline section renders whatever the heatmap pivot did; a
pivot failure is caught and shown as the warning text, rendering no
matrix; a pivot success shows no warning and renders the pivoted matrix
with missing cells filled with 0 — and on `heat_df` input the pivot in
fact always succeeds. -/
theorem heatmap_section_isolation (df : List Record) (aggs : List AggRecord) :
    (renderTail df aggs).timeline
        = (if (scFilter df).isEmpty then none else some (agg_tl (scFilter df)))
      ∧ (∃ m, pivotTable (heat_df aggs) = Except.ok m)
      ∧ (∀ m, pivotTable (heat_df aggs) = Except.ok m →
          (renderTail df aggs).heat
            = ⟨none, some (m.index, m.cols, fillna0 m)⟩)
      ∧ (∀ e, pivotTable (heat_df aggs) = Except.error e →
          (renderTail df aggs).heat
            = ⟨some ("Unable to render heatmap for this week: " ++ e),
               none⟩) := by
  refine ⟨rfl, pivot_heat_df_ok aggs, ?_, ?_⟩
  · intro m hm
    show renderHeatSection aggs = _
    unfold renderHeatSection
    rw [hm]
  · intro e he
    show renderHeatSection aggs = _
    unfold renderHeatSection
    rw [he]

/-- Witness for C7: on a one-record input the pivot succeeds, no warning
is raised, and the rendered matrix is the 0-filled pivot. -/
theorem heatmap_section_isolation_witness :
    (renderTail [] [aggM]).heat
      = ⟨none, some (exPivot.index, exPivot.cols, fillna0 exPivot)⟩ :=
  (heatmap_section_isolation [] [aggM]).2.2.1 exPivot rfl

/-- `sck` on a `"Super Critical"` key. -/
theorem sck_eq_some {k : Int × String × String}
    (h : k.2.2 = "Super Critical") : sck k = some (k.1, k.2.1) := by
  simp [sck, h]

/-- `sck` on any other key. -/
theorem sck_eq_none {k : Int × String × String}
    (h : k.2.2 ≠ "Super Critical") : sck k = none := by
  simp [sck, h]

/-- Removing a `"Super Critical"` key from a key list commutes with the
`sck` projection. -/
theorem filterMap_sck_filter_ne (k : Int × String × String)
    (hk : k.2.2 = "Super Critical") (L : List (Int × String × String)) :
    (L.filter (fun t => decide (t ≠ k))).filterMap sck
      = (L.filterMap sck).filter (fun q => decide (q ≠ (k.1, k.2.1))) := by
  obtain ⟨kw, kp, kc⟩ := k
  have hk2 : kc = "Super Critical" := hk
  subst hk2
  induction L with
  | nil => rfl
  | cons t ts ih =>
    obtain ⟨tw, tp, tc⟩ := t
    by_cases htc : tc = "Super Critical"
    · subst htc
      by_cases hwp : ((tw, tp) : Int × String) = (kw, kp)
      · rw [Prod.mk.injEq] at hwp
        obtain ⟨h1, h2⟩ := hwp
        subst h1
        subst h2
        simp only [List.filter_cons, List.filterMap_cons]
        simp [sck]
        simpa using ih
      · have hne : ((tw, tp, "Super Critical") : Int × String × String)
            ≠ (kw, kp, "Super Critical") := by
          intro he
          apply hwp
          simp only [Prod.mk.injEq] at he
          rw [Prod.mk.injEq]
          exact ⟨he.1, he.2.1⟩
        simp only [List.filter_cons, List.filterMap_cons]
        simp [sck, hne, hwp]
        simpa using ih
    · have hne : ((tw, tp, tc) : Int × String × String)
          ≠ (kw, kp, "Super Critical") := by
        intro he
        simp only [Prod.mk.injEq] at he
        exact htc he.2.2
      simp only [List.filter_cons, List.filterMap_cons]
      simp [sck, hne, htc]
      simpa using ih

/-- Removing a non-`"Super Critical"` key from a key list does not
change its `sck` projection. -/
theorem filterMap_sck_filter_ne_not (k : Int × String × String)
    (hk : k.2.2 ≠ "Super Critical") (L : List (Int × String × String)) :
    (L.filter (fun t => decide (t ≠ k))).filterMap sck = L.filterMap sck := by
  induction L with
  | nil => rfl
  | cons t ts ih =>
    by_cases ht : t = k
    · subst ht
      simp [List.filter_cons, List.filterMap_cons, sck_eq_none hk]
      simpa using ih
    · cases hsc : sck t with
      | none =>
        simp [List.filter_cons, List.filterMap_cons, ht, hsc]
        simpa using ih
      | some q =>
        simp [List.filter_cons, List.filterMap_cons, ht, hsc]
        simpa using ih

/-- The three components a three-column trend key records. -/
theorem tlcKey_some_parts {r : Record} {k3 : Int × String × String}
    (h3 : tlcKey r = some k3) :
    r.weekNumber = some k3.1 ∧ r.projectName = some k3.2.1
      ∧ r.projectCategory = some k3.2.2 := by
  cases hw : r.weekNumber with
  | none => simp [tlcKey, hw] at h3
  | some w =>
    cases hp : r.projectName with
    | none => simp [tlcKey, hw, hp] at h3
    | some p =>
      cases hc : r.projectCategory with
      | none => simp [tlcKey, hw, hp, hc] at h3
      | some c =>
        simp only [tlcKey, hw, hp, hc, Option.some.injEq] at h3
        subst h3
        exact ⟨rfl, rfl, rfl⟩

/-- A row with a category but no three-column key has no two-column key
either. -/
theorem tlKey_none_of_tlcKey_none {r : Record} (h3 : tlcKey r = none)
    (hc : r.projectCategory = some "Super Critical") : tlKey r = none := by
  cases hw : r.weekNumber with
  | none => simp [tlKey, hw]
  | some w =>
    cases hp : r.projectName with
    | none => simp [tlKey, hw, hp]
    | some p => simp [tlcKey, hw, hp, hc] at h3

/-- The two-column key of a row with a three-column key. -/
theorem tlKey_of_tlcKey_some {r : Record} {k3 : Int × String × String}
    (h3 : tlcKey r = some k3) : tlKey r = some (k3.1, k3.2.1) := by
  obtain ⟨hw, hp, _⟩ := tlcKey_some_parts h3
  simp [tlKey, hw, hp]

/-- The distinct `(week, project)` keys of the category-filtered input
are the projections of the distinct `"Super Critical"` three-column keys
of the full input. -/
theorem keyList_scFilter (rows : List Record) :
    keyList tlKey (scFilter rows) = (keyList tlcKey rows).filterMap sck := by
  induction rows with
  | nil => rfl
  | cons r rs ih =>
    by_cases hsc : r.projectCategory = some "Super Critical"
    · rw [show scFilter (r :: rs) = r :: scFilter rs from by
        simp [scFilter, List.filter_cons, hsc]]
      cases hk3 : tlcKey r with
      | none =>
        have hk2 : tlKey r = none := tlKey_none_of_tlcKey_none hk3 hsc
        simp only [keyList, hk2, hk3]
        exact ih
      | some k3 =>
        have hk33 : k3.2.2 = "Super Critical" := by
          have hparts := (tlcKey_some_parts hk3).2.2
          rw [hsc] at hparts
          exact (Option.some.inj hparts).symm
        have hk2 : tlKey r = some (k3.1, k3.2.1) := tlKey_of_tlcKey_some hk3
        simp only [keyList, hk2, hk3]
        rw [List.filterMap_cons, sck_eq_some hk33,
          filterMap_sck_filter_ne k3 hk33, ih]
    · rw [show scFilter (r :: rs) = scFilter rs from by
        simp [scFilter, List.filter_cons, hsc]]
      cases hk3 : tlcKey r with
      | none =>
        simp only [keyList, hk3]
        exact ih
      | some k3 =>
        have hk33 : k3.2.2 ≠ "Super Critical" := by
          intro he
          apply hsc
          have hparts := (tlcKey_some_parts hk3).2.2
          rw [he] at hparts
          exact hparts
        simp only [keyList, hk3]
        rw [List.filterMap_cons, sck_eq_none hk33,
          filterMap_sck_filter_ne_not k3 hk33, ih]

/-- Row-level agreement of the two group predicates. -/
theorem tl_cond_eq (r : Record) (w : Int) (p : String) :
    (decide (tlKey r = some (w, p))
        && decide (r.projectCategory = some "Super Critical"))
      = decide (tlcKey r = some (w, p, "Super Critical")) := by
  cases hw : r.weekNumber <;> cases hp : r.projectName <;>
    cases hc : r.projectCategory <;>
      simp [tlKey, tlcKey, hw, hp, hc, Prod.mk.injEq, Bool.decide_and,
        Bool.and_assoc, and_assoc]

/-- The `(w, p)` group of the category-filtered input is the
`(w, p, "Super Critical")` group of the full input. -/
theorem scFilter_group_eq (rows : List Record) (w : Int) (p : String) :
    (scFilter rows).filter (fun r => decide (tlKey r = some (w, p)))
      = rows.filter
          (fun r => decide (tlcKey r = some (w, p, "Super Critical"))) := by
  unfold scFilter
  rw [List.filter_filter]
  exact List.filter_congr (fun r _ => tl_cond_eq r w p)

/-- C8: filtering to `"Super Critical"` rows and then aggregating the
mean completion by `(week, project)` gives exactly the aggregation of
the full input by `(week, project, category)` restricted to the
`"Super Critical"` groups. -/
theorem trend_filter_aggregate_commute (rows : List Record) :
    agg_tl (scFilter rows) = keepSuperCritical (aggByWeekProjCat rows) := by
  unfold agg_tl aggByWeekProjCat keepSuperCritical groupBy
  rw [List.map_map, List.map_map, keyList_scFilter, List.map_filterMap,
    List.filterMap_map]
  congr 1
  funext k3
  obtain ⟨w, p, c⟩ := k3
  by_cases h33 : c = "Super Critical"
  · subst h33
    rw [sck_eq_some rfl]
    show some (((w, p) : Int × String),
        meanOpt (((scFilter rows).filter
          (fun r => decide (tlKey r = some (w, p)))).map
            (·.completionPercent))) = _
    rw [scFilter_group_eq rows w p]
    rfl
  · rw [sck_eq_none h33]
    show (none : Option ((Int × String) × Option ℚ)) = _
    simp [h33]

end WarRoom
